import Mathlib

/-!
# Verification of the Cino backend's Personalized Feed & Playback Continuity Core

Shallow embedding of the watch-progress store (`src/models/Watchlist.js`),
the rating path (`rateContent` in the watchlist controller), the feed
algorithm (`src/services/feedService.js`), the cache helpers
(`src/config/redis.js` and the cache service), the like toggle
(`src/controllers/episodeController.js`), and the prefetch bandwidth
estimators.  JavaScript numbers are modelled as exact rationals (`ℚ`);
JavaScript truthiness on a number is `≠ 0`, on an optional value it is
presence of a nonzero payload.  Wall-clock times (`Date.now()`, `new Date()`)
are passed in as rational parameters.
-/

namespace Cino

/-! ## Watch records (`src/models/Watchlist.js`) -/

/-- The `status` enum of the `watchlistSchema`. -/
inductive WatchStatus
  | watching
  | completed
  | dropped
  | paused
deriving DecidableEq, Repr

/-- The fields of a `Watchlist` document that the progress/completion logic
reads or writes.  `completedAt` and `lastWatchedAt` are timestamps
(`sessionInfo.completedAt`, `sessionInfo.lastWatchedAt`);
`sessionDuration` is `engagement.sessionDuration`. -/
structure WatchRecord where
  currentPosition : ℚ
  totalDuration : ℚ
  percentageWatched : ℚ
  isCompleted : Bool
  status : WatchStatus
  completedAt : Option ℚ
  lastWatchedAt : ℚ
  sessionDuration : ℚ
  totalSessions : ℚ
  averageSessionLength : ℚ
deriving DecidableEq, Repr

/-- The `watchlistSchema.pre('save')` hook (Watchlist.js lines 102-121).
The JS guard `if (this.watchProgress.currentPosition &&
this.watchProgress.totalDuration)` tests truthiness, so a zero position or
zero duration skips the recomputation.  When the recomputed percentage is
at least 80 the record is completed, and `completedAt` is stamped only when
it is not already set (`if (!this.sessionInfo.completedAt)`). -/
def preSave (now : ℚ) (w : WatchRecord) : WatchRecord :=
  let w1 :=
    if w.currentPosition ≠ 0 ∧ w.totalDuration ≠ 0 then
      let pct := w.currentPosition / w.totalDuration * 100
      let w2 := { w with percentageWatched := pct }
      if 80 ≤ pct then
        { w2 with
          isCompleted := true
          status := WatchStatus.completed
          completedAt := some (w2.completedAt.getD now) }
      else w2
    else w
  { w1 with lastWatchedAt := now }

/-- `watchlistSchema.methods.updateProgress` (lines 124-134): takes the max
of the old and requested positions, accumulates the session counters, and
saves (running the `pre('save')` hook). -/
def updateProgress (now position sessionDuration : ℚ) (w : WatchRecord) : WatchRecord :=
  let w1 := { w with
    currentPosition := max w.currentPosition position
    sessionDuration := w.sessionDuration + sessionDuration
    totalSessions := w.totalSessions + 1 }
  let w2 := { w1 with averageSessionLength := w1.sessionDuration / w1.totalSessions }
  preSave now w2

/-- `watchlistSchema.methods.markAsCompleted` (lines 136-141): sets
`isCompleted`, `status`, and unconditionally re-stamps
`sessionInfo.completedAt = new Date()`, then saves. -/
def markAsCompleted (now : ℚ) (w : WatchRecord) : WatchRecord :=
  preSave now { w with
    isCompleted := true
    status := WatchStatus.completed
    completedAt := some now }

/-- A freshly created record with the schema defaults (as created by e.g.
`episodeController.toggleLike` or `startWatching`). -/
def freshRecord (totalDuration : ℚ) : WatchRecord :=
  { currentPosition := 0
    totalDuration := totalDuration
    percentageWatched := 0
    isCompleted := false
    status := WatchStatus.watching
    completedAt := none
    lastWatchedAt := 0
    sessionDuration := 0
    totalSessions := 1
    averageSessionLength := 0 }

/-- A sequence of `updateProgress` calls, each given as
`(now, position, sessionDuration)`. -/
def runUpdates (w : WatchRecord) : List (ℚ × ℚ × ℚ) → WatchRecord
  | [] => w
  | (now, p, sd) :: rest => runUpdates (updateProgress now p sd w) rest

theorem preSave_currentPosition (now : ℚ) (w : WatchRecord) :
    (preSave now w).currentPosition = w.currentPosition := by
  unfold preSave
  dsimp only
  split <;> [skip; rfl]
  split <;> rfl

theorem preSave_completedAt_of_some (now t : ℚ) (w : WatchRecord)
    (h : w.completedAt = some t) : (preSave now w).completedAt = some t := by
  unfold preSave
  dsimp only
  split <;> [skip; exact h]
  split <;> simp [h]

theorem updateProgress_currentPosition (now p sd : ℚ) (w : WatchRecord) :
    (updateProgress now p sd w).currentPosition = max w.currentPosition p := by
  unfold updateProgress
  dsimp only
  rw [preSave_currentPosition]

theorem runUpdates_mono (w : WatchRecord) (calls : List (ℚ × ℚ × ℚ)) :
    w.currentPosition ≤ (runUpdates w calls).currentPosition := by
  induction calls generalizing w with
  | nil => exact le_refl _
  | cons c rest ih =>
    obtain ⟨now, p, sd⟩ := c
    refine le_trans ?_ (ih (updateProgress now p sd w))
    rw [updateProgress_currentPosition]
    exact le_max_left _ _

theorem preSave_totalDuration (now : ℚ) (w : WatchRecord) :
    (preSave now w).totalDuration = w.totalDuration := by
  unfold preSave
  dsimp only
  split <;> [skip; rfl]
  split <;> rfl

theorem preSave_percentageWatched (now : ℚ) (w : WatchRecord)
    (hp : w.currentPosition ≠ 0) (hd : w.totalDuration ≠ 0) :
    (preSave now w).percentageWatched = w.currentPosition / w.totalDuration * 100 := by
  unfold preSave
  dsimp only
  rw [if_pos ⟨hp, hd⟩]
  split <;> rfl

theorem updateProgress_totalDuration (now p sd : ℚ) (w : WatchRecord) :
    (updateProgress now p sd w).totalDuration = w.totalDuration := by
  unfold updateProgress
  dsimp only
  rw [preSave_totalDuration]

theorem updateProgress_percentageWatched (now p sd : ℚ) (w : WatchRecord)
    (hp : max w.currentPosition p ≠ 0) (hd : w.totalDuration ≠ 0) :
    (updateProgress now p sd w).percentageWatched
      = max w.currentPosition p / w.totalDuration * 100 := by
  unfold updateProgress
  dsimp only
  rw [preSave_percentageWatched]
  · exact hp
  · exact hd

theorem preSave_completedAt_of_none_of_complete (now : ℚ) (w : WatchRecord)
    (h : w.completedAt = none) (hp : w.currentPosition ≠ 0) (hd : w.totalDuration ≠ 0)
    (h80 : 80 ≤ w.currentPosition / w.totalDuration * 100) :
    (preSave now w).completedAt = some now
      ∧ (preSave now w).status = WatchStatus.completed
      ∧ (preSave now w).isCompleted = true := by
  unfold preSave
  dsimp only
  rw [if_pos ⟨hp, hd⟩, if_pos h80]
  simp [h]

end Cino

namespace Cino

/-! ## Claim theorems for the watch-progress store -/

/-- C1 counterexample.  The claim says a second `markCompleted` on an
already-completed record yields the same `completedAt` as the first call.
On the code, `markAsCompleted` unconditionally re-stamps
`sessionInfo.completedAt = new Date()`: completing at time 5 and again at
time 7 moves `completedAt` from 5 to 7. -/
theorem c1_counterexample_markAsCompleted_restamps :
    (markAsCompleted 5 (freshRecord 100)).isCompleted = true
      ∧ (markAsCompleted 5 (freshRecord 100)).status = WatchStatus.completed
      ∧ (markAsCompleted 5 (freshRecord 100)).completedAt = some 5
      ∧ (markAsCompleted 7 (markAsCompleted 5 (freshRecord 100))).completedAt = some 7
      ∧ (7 : ℚ) ≠ 5 := by
  refine ⟨rfl, rfl, rfl, rfl, by norm_num⟩

/-- C1 amended.  Along the save path (`pre('save')`, hence any
`updateProgress`) `completedAt` is stamped exactly once: it is set to the
current time when the record first crosses 80% with `completedAt` unset,
and once set it never changes on a later `updateProgress`.  However
`markAsCompleted` itself re-stamps `completedAt` to the time of the call,
every time it is called. -/
theorem c1_completedAt_stamped_once_on_save (now p sd t : ℚ) (w : WatchRecord) :
    (w.completedAt = some t → (updateProgress now p sd w).completedAt = some t)
    ∧ (w.completedAt = none → w.currentPosition ≠ 0 → w.totalDuration ≠ 0 →
        80 ≤ w.currentPosition / w.totalDuration * 100 →
        (preSave now w).completedAt = some now
          ∧ (preSave now w).status = WatchStatus.completed
          ∧ (preSave now w).isCompleted = true)
    ∧ (markAsCompleted now w).completedAt = some now := by
  refine ⟨fun h => ?_, fun h hp hd h80 => ?_, ?_⟩
  · exact preSave_completedAt_of_some now t _ h
  · exact preSave_completedAt_of_none_of_complete now w h hp hd h80
  · exact preSave_completedAt_of_some now now _ rfl

/-- C1 witness: the stamped-once theorem applied at a record that crosses
80% (position 85 of duration 100) at time 3, is updated again at time 9,
and is `markAsCompleted` at time 7. -/
theorem c1_witness :
    (preSave 3 { freshRecord 100 with currentPosition := 85 }).completedAt = some 3
      ∧ (updateProgress 9 40 0 { freshRecord 100 with currentPosition := 85, completedAt := some 3 }).completedAt = some 3
      ∧ (markAsCompleted 7 { freshRecord 100 with currentPosition := 85 }).completedAt
          = some 7 := by
  have h1 := c1_completedAt_stamped_once_on_save 3 0 0 3
    { freshRecord 100 with currentPosition := 85 }
  have h2 := c1_completedAt_stamped_once_on_save 9 40 0 3
    { freshRecord 100 with currentPosition := 85, completedAt := some 3 }
  have h7 := c1_completedAt_stamped_once_on_save 7 0 0 3
    { freshRecord 100 with currentPosition := 85 }
  refine ⟨(h1.2.1 rfl ?_ ?_ ?_).1, h2.1 rfl, h7.2.2⟩
  · norm_num [freshRecord]
  · norm_num [freshRecord]
  · norm_num [freshRecord]

/-- C2 confirmed.  `updateProgress` sets `currentPosition` to the max of
the old and requested positions; a call with a smaller position leaves it
unchanged, and over any sequence of calls it is non-decreasing. -/
theorem c2_currentPosition_monotone (now p sd : ℚ) (w : WatchRecord)
    (calls : List (ℚ × ℚ × ℚ)) :
    (updateProgress now p sd w).currentPosition = max w.currentPosition p
    ∧ (p ≤ w.currentPosition →
        (updateProgress now p sd w).currentPosition = w.currentPosition)
    ∧ w.currentPosition ≤ (runUpdates w calls).currentPosition := by
  refine ⟨updateProgress_currentPosition now p sd w, fun h => ?_, runUpdates_mono w calls⟩
  rw [updateProgress_currentPosition]
  exact max_eq_left h

/-- C2 witness: the monotonicity theorem applied at a record at position 85
receiving a smaller position 40. -/
theorem c2_witness :
    (40 : ℚ) ≤ 85
      ∧ (updateProgress 1 40 0 { freshRecord 100 with currentPosition := 85 }).currentPosition
          = 85 := by
  have h := c2_currentPosition_monotone 1 40 0
    { freshRecord 100 with currentPosition := 85 } []
  exact ⟨by norm_num, h.2.1 (by norm_num [freshRecord])⟩

/-- C3 counterexample.  The claim says `percentageWatched` is clamped to
`[0,100]` and `currentPosition ≤ totalDuration`.  The code clamps neither:
an update to position 150 on a 100-second episode stores
`currentPosition = 150` and `percentageWatched = 150`. -/
theorem c3_counterexample_no_clamp :
    (updateProgress 0 150 0 (freshRecord 100)).percentageWatched = 150
      ∧ 100 < (updateProgress 0 150 0 (freshRecord 100)).percentageWatched
      ∧ (updateProgress 0 150 0 (freshRecord 100)).totalDuration
          < (updateProgress 0 150 0 (freshRecord 100)).currentPosition := by
  have hmax : max (freshRecord 100).currentPosition (150 : ℚ) = 150 := by
    rw [show (freshRecord 100).currentPosition = 0 from rfl]
    exact max_eq_right (by norm_num)
  have hpct : (updateProgress 0 150 0 (freshRecord 100)).percentageWatched = 150 := by
    rw [updateProgress_percentageWatched, hmax]
    · norm_num [freshRecord]
    · rw [hmax]; norm_num
    · norm_num [freshRecord]
  refine ⟨hpct, by rw [hpct]; norm_num, ?_⟩
  rw [updateProgress_totalDuration, updateProgress_currentPosition, hmax]
  norm_num [freshRecord]

/-- C3 amended.  After a save, `percentageWatched` equals
`100·currentPosition/totalDuration` exactly (whenever position and duration
are nonzero) with no clamping, `totalDuration` is unchanged, and
`currentPosition` stays nonnegative — but it is not bounded by
`totalDuration` and the percentage can exceed 100. -/
theorem c3_percentage_exact_unclamped (now p sd : ℚ) (w : WatchRecord) :
    (0 ≤ w.currentPosition → 0 ≤ (updateProgress now p sd w).currentPosition)
    ∧ (updateProgress now p sd w).totalDuration = w.totalDuration
    ∧ (max w.currentPosition p ≠ 0 → w.totalDuration ≠ 0 →
        (updateProgress now p sd w).percentageWatched
          = 100 * (updateProgress now p sd w).currentPosition
              / (updateProgress now p sd w).totalDuration) := by
  refine ⟨fun h => ?_, updateProgress_totalDuration now p sd w, fun hp hd => ?_⟩
  · rw [updateProgress_currentPosition]
    exact le_trans h (le_max_left _ _)
  · rw [updateProgress_currentPosition, updateProgress_totalDuration,
      updateProgress_percentageWatched now p sd w hp hd]
    ring

/-- C3 witness: the exact-percentage theorem applied to an update to
position 150 of a 100-second episode, giving 150%. -/
theorem c3_witness :
    (updateProgress 0 150 0 (freshRecord 100)).percentageWatched
        = 100 * (updateProgress 0 150 0 (freshRecord 100)).currentPosition
            / (updateProgress 0 150 0 (freshRecord 100)).totalDuration
      ∧ 0 ≤ (updateProgress 0 150 0 (freshRecord 100)).currentPosition := by
  have h := c3_percentage_exact_unclamped 0 150 0 (freshRecord 100)
  refine ⟨h.2.2 ?_ ?_, h.1 ?_⟩ <;> norm_num [freshRecord]

/-! ## Rating aggregation (`rateContent` in the watchlist controller) -/

/-- The two errors `rateContent` can throw before touching any state:
an out-of-range rating (HTTP 400) and the absent watch record (HTTP 400,
"Must watch content before rating"). -/
inductive RateError
  | invalidRating
  | notWatched
deriving DecidableEq, Repr

/-- The slice of a `Watchlist` document read by `rateContent`:
`userInteraction.rating`, absent until the user first rates. -/
structure RatingEntry where
  rating : Option ℚ
deriving DecidableEq, Repr

/-- The `analytics` slice of a `Content` document that `rateContent`
rewrites. -/
structure ContentRatings where
  averageRating : ℚ
  totalRatings : ℚ
deriving DecidableEq, Repr

/-- `rateContent` (watchlist controller): validates `1 ≤ rating ≤ 5`,
requires an existing watch record on the content, stores the rating on the
record, and recomputes the content's `averageRating`/`totalRatings`.  The
JS branch `if (previousRating)` is a truthiness test, so an absent (or
zero) stored rating takes the new-rating branch; the schema bounds stored
ratings to `1..5`, so a present rating is never zero. -/
def rateContent (rating : ℚ) (entry : Option RatingEntry) (c : ContentRatings) :
    Except RateError (RatingEntry × ContentRatings) :=
  if rating < 1 ∨ 5 < rating then Except.error RateError.invalidRating
  else
    match entry with
    | none => Except.error RateError.notWatched
    | some e =>
      let previousRating := e.rating.getD 0
      let e2 : RatingEntry := { rating := some rating }
      if previousRating ≠ 0 then
        let totalRatings := c.totalRatings
        let currentTotal := c.averageRating * totalRatings
        let newTotal := currentTotal - previousRating + rating
        Except.ok (e2, { c with averageRating := newTotal / totalRatings })
      else
        let totalRatings := c.totalRatings + 1
        let currentTotal := c.averageRating * c.totalRatings
        let newTotal := currentTotal + rating
        Except.ok (e2, { averageRating := newTotal / totalRatings
                         totalRatings := totalRatings })

/-- C4 confirmed.  With a valid rating and an existing watch record:
replacing a previous rating `r0` yields average
`(avg·N − r0 + r)/N` with `N` unchanged — a shift of exactly `(r−r0)/N`
when `N > 0` — while a first rating yields `(avg·N + r)/(N+1)` and
`N+1` ratings. -/
theorem c4_rating_aggregation (r r0 : ℚ) (c : ContentRatings)
    (h1 : 1 ≤ r) (h5 : r ≤ 5) :
    (∀ e : RatingEntry, e.rating = some r0 → r0 ≠ 0 →
      rateContent r (some e) c
          = Except.ok (⟨some r⟩,
              ⟨(c.averageRating * c.totalRatings - r0 + r) / c.totalRatings,
               c.totalRatings⟩)
        ∧ (0 < c.totalRatings →
            (c.averageRating * c.totalRatings - r0 + r) / c.totalRatings
                - c.averageRating = (r - r0) / c.totalRatings))
    ∧ (∀ e : RatingEntry, e.rating = none →
        rateContent r (some e) c
          = Except.ok (⟨some r⟩,
              ⟨(c.averageRating * c.totalRatings + r) / (c.totalRatings + 1),
               c.totalRatings + 1⟩)) := by
  have hrange : ¬(r < 1 ∨ 5 < r) := by
    push_neg
    exact ⟨h1, h5⟩
  constructor
  · intro e he hr0
    constructor
    · unfold rateContent
      rw [if_neg hrange]
      dsimp only
      rw [he]
      dsimp only [Option.getD]
      rw [if_pos hr0]
    · intro hN
      have hN0 : c.totalRatings ≠ 0 := ne_of_gt hN
      field_simp
      ring
  · intro e he
    unfold rateContent
    rw [if_neg hrange]
    dsimp only
    rw [he]
    dsimp only [Option.getD]
    rw [if_neg (by norm_num)]

/-- C4 witness: the spec's own scenario — a content at average 3.0 with 4
ratings receives a first rating 5 (average becomes 3.4 over 5 ratings);
replacing a rating 5 by 1 at average 3.4 over 5 shifts the average by
`(1−5)/5` to 2.6. -/
theorem c4_witness :
    rateContent 5 (some ⟨none⟩) ⟨3, 4⟩ = Except.ok (⟨some 5⟩, ⟨17/5, 5⟩)
      ∧ rateContent 1 (some ⟨some 5⟩) ⟨17/5, 5⟩ = Except.ok (⟨some 1⟩, ⟨13/5, 5⟩)
      ∧ (13/5 : ℚ) - 17/5 = (1 - 5) / 5 := by
  have hnew := (c4_rating_aggregation 5 0 ⟨3, 4⟩ (by norm_num) (by norm_num)).2
    ⟨none⟩ rfl
  have hrepl := (c4_rating_aggregation 1 5 ⟨17/5, 5⟩ (by norm_num) (by norm_num)).1
    ⟨some 5⟩ rfl (by norm_num)
  refine ⟨?_, ?_, by norm_num⟩
  · rw [hnew]
    norm_num
  · rw [hrepl.1]
    norm_num

/-! ## The feed shuffle (`feedService._shuffleArray`)

The source copies the input (`const shuffled = [...array]`), then runs a
Fisher–Yates loop `for (let i = n−1; i > 0; i--)` swapping position `i`
with a random position `j = Math.floor(Math.random()*(i+1)) ∈ [0, i]`.
The random draws are modelled by a function `rand`, reduced into range by
`% (i+1)` (every value of `j` the source can draw is representable).  The
input list is a value and is returned untouched inside the copy, so
non-mutation is inherent to the embedding. -/

/-- In-place swap of two positions of a list (`[shuffled[i], shuffled[j]] =
[shuffled[j], shuffled[i]]`); out-of-range indices leave the list as is
(the loop below only uses in-range indices). -/
def swapL {α : Type*} (l : List α) (i j : ℕ) : List α :=
  if h : i < l.length ∧ j < l.length then
    (l.set i (l.get ⟨j, h.2⟩)).set j (l.get ⟨i, h.1⟩)
  else l

/-- The Fisher–Yates loop, counting the loop variable down to 0. -/
def shuffleGo {α : Type*} (rand : ℕ → ℕ) : ℕ → List α → List α
  | 0, l => l
  | i + 1, l => shuffleGo rand i (swapL l (i + 1) (rand (i + 1) % (i + 2)))

/-- `feedService._shuffleArray`. -/
def shuffleArray {α : Type*} (rand : ℕ → ℕ) (l : List α) : List α :=
  shuffleGo rand (l.length - 1) l

theorem get_cons_set_perm {α : Type*} :
    ∀ (l : List α) (m : ℕ) (h : m < l.length) (a : α),
      (l.get ⟨m, h⟩ :: l.set m a).Perm (a :: l)
  | [], m, h, _ => (Nat.not_lt_zero m h).elim
  | b :: t, 0, _, a => List.Perm.swap a b t
  | b :: t, m + 1, h, a =>
    ((List.Perm.swap b _ _).trans
      ((get_cons_set_perm t m (Nat.lt_of_succ_lt_succ h) a).cons b)).trans
        (List.Perm.swap a b t)

theorem set_set_perm {α : Type*} :
    ∀ (l : List α) (i j : ℕ) (hi : i < l.length) (hj : j < l.length),
      ((l.set i (l.get ⟨j, hj⟩)).set j (l.get ⟨i, hi⟩)).Perm l
  | [], i, _, hi, _ => (Nat.not_lt_zero i hi).elim
  | _ :: _, 0, 0, _, _ => List.Perm.refl _
  | a :: t, 0, j + 1, _, hj => get_cons_set_perm t j (Nat.lt_of_succ_lt_succ hj) a
  | a :: t, i + 1, 0, hi, _ => get_cons_set_perm t i (Nat.lt_of_succ_lt_succ hi) a
  | a :: t, i + 1, j + 1, hi, hj =>
    (set_set_perm t i j (Nat.lt_of_succ_lt_succ hi) (Nat.lt_of_succ_lt_succ hj)).cons a

theorem swapL_perm {α : Type*} (l : List α) (i j : ℕ) : (swapL l i j).Perm l := by
  unfold swapL
  split
  next h => exact set_set_perm l i j h.1 h.2
  next => exact List.Perm.refl l

theorem shuffleGo_perm {α : Type*} (rand : ℕ → ℕ) :
    ∀ (n : ℕ) (l : List α), (shuffleGo rand n l).Perm l
  | 0, l => List.Perm.refl l
  | n + 1, l => (shuffleGo_perm rand n _).trans (swapL_perm l (n + 1) _)

theorem shuffleArray_perm {α : Type*} (rand : ℕ → ℕ) (l : List α) :
    (shuffleArray rand l).Perm l :=
  shuffleGo_perm rand (l.length - 1) l

/-- C10 confirmed.  For every input list and every sequence of random
draws, `_shuffleArray` returns a permutation of its input: same length and
the same multiset of elements (equal counts for every element); the input
itself, being copied first, is untouched. -/
theorem c10_shuffle_is_permutation {α : Type*} [DecidableEq α]
    (rand : ℕ → ℕ) (l : List α) :
    (shuffleArray rand l).Perm l
    ∧ (shuffleArray rand l).length = l.length
    ∧ ∀ a : α, (shuffleArray rand l).count a = l.count a :=
  ⟨shuffleArray_perm rand l, (shuffleArray_perm rand l).length_eq,
    fun a => (shuffleArray_perm rand l).count_eq a⟩

/-! ## The feed algorithm (`feedService._applyFeedAlgorithm`) -/

/-- JavaScript `x || d` on a number: a falsy (zero, or absent) value is
replaced by the default. -/
def orDefault (x d : ℚ) : ℚ :=
  if x = 0 then d else x

/-- The fields of a `Content` document read by `_applyFeedAlgorithm`
(`analytics.*`, `feedSettings.*`, `genre`, `language`, `publishedAt` as a
millisecond timestamp). -/
structure FeedItem where
  id : ℕ
  popularityScore : ℚ
  trendingScore : ℚ
  feedPriority : ℚ
  feedWeight : ℚ
  completionRate : ℚ
  genre : List String
  language : List String
  publishedAt : ℚ
deriving DecidableEq, Repr

/-- The user-preference object handed to the feed pipeline. -/
structure UserPrefs where
  genres : List String
  languages : List String
deriving DecidableEq, Repr

/-- A content item with the `_algorithmScore` attached by
`_applyFeedAlgorithm`. -/
structure ScoredItem where
  item : FeedItem
  algorithmScore : ℚ
deriving DecidableEq, Repr

/-- The score computed per item by `_applyFeedAlgorithm` (lines 165-199).
`now` is `Date.now()` in ms; `rnd` is the item's `Math.random()` draw, so
the jitter term is `rnd * 10`.  The boosts guard on non-empty preference
lists exactly as the JS does. -/
def algorithmScoreOf (prefs : UserPrefs) (now rnd : ℚ) (item : FeedItem) : ℚ :=
  orDefault item.popularityScore 0 * 0.3
  + orDefault item.trendingScore 0 * 0.2
  + orDefault item.feedPriority 1 * 10
  + orDefault item.feedWeight 1 * 5
  + (if prefs.genres ≠ [] ∧ item.genre.any (fun g => prefs.genres.contains g)
      then 20 else 0)
  + (if prefs.languages ≠ [] ∧ item.language.any (fun l => prefs.languages.contains l)
      then 15 else 0)
  + (if (now - item.publishedAt) / 86400000 < 7 then 10
     else if (now - item.publishedAt) / 86400000 < 30 then 5 else 0)
  + orDefault item.completionRate 0 * 0.1
  + rnd * 10

/-- Descending order on attached scores: the JS comparator
`(a, b) => b._algorithmScore - a._algorithmScore`. -/
def scoreGE (a b : ScoredItem) : Prop :=
  b.algorithmScore ≤ a.algorithmScore

instance : DecidableRel scoreGE :=
  fun a b => inferInstanceAs (Decidable (b.algorithmScore ≤ a.algorithmScore))

instance : IsTotal ScoredItem scoreGE :=
  ⟨fun a b => le_total b.algorithmScore a.algorithmScore⟩

instance : IsTrans ScoredItem scoreGE :=
  ⟨fun _ _ _ hab hbc => le_trans hbc hab⟩

/-- `_applyFeedAlgorithm`: maps each item to itself plus its
`_algorithmScore`, then sorts descending by that score (a stable sort, as
V8's `Array.prototype.sort`). -/
def applyFeedAlgorithm (prefs : UserPrefs) (now : ℚ) (rnd : FeedItem → ℚ)
    (content : List FeedItem) : List ScoredItem :=
  (content.map (fun it => ScoredItem.mk it (algorithmScoreOf prefs now (rnd it) it))).insertionSort
    scoreGE

/-- `_removeDuplicates`: keeps the first occurrence of each content id,
tracking seen ids (the JS `Set`). -/
def removeDuplicatesGo (seen : List ℕ) : List FeedItem → List FeedItem
  | [] => []
  | item :: rest =>
    if seen.contains item.id then removeDuplicatesGo seen rest
    else item :: removeDuplicatesGo (item.id :: seen) rest

/-- `_removeDuplicates` as called by `generateRandomFeed`. -/
def removeDuplicates (content : List FeedItem) : List FeedItem :=
  removeDuplicatesGo [] content

theorem orDefault_zero (x : ℚ) : orDefault x 0 = x := by
  unfold orDefault
  split
  next h => exact h.symm
  next => rfl

theorem orDefault_of_ne (x d : ℚ) (h : x ≠ 0) : orDefault x d = x := by
  unfold orDefault
  exact if_neg h

/-- C5 counterexample.  The claim's `5·feedWeight` term is wrong for a
zero `feedWeight`: the source computes `(item.feedSettings.feedWeight ||
1) * 5`, so a zero weight contributes `5`, not `0`.  With every other
contribution zero and `feedPriority = 1`, the code attaches score 15 where
the claimed formula gives 10. -/
theorem c5_counterexample_feedWeight_zero :
    applyFeedAlgorithm ⟨[], []⟩ (30 * 86400000) (fun _ => 0)
        [⟨1, 0, 0, 1, 0, 0, [], [], 0⟩]
      = [⟨⟨1, 0, 0, 1, 0, 0, [], [], 0⟩, 15⟩]
    ∧ (0.3 * 0 + 0.2 * 0 + 10 * 1 + 5 * 0 + 0 + 0 + 0 + 0.1 * 0 + 0 * 10 : ℚ) = 10
    ∧ (15 : ℚ) ≠ 10 := by
  refine ⟨?_, by norm_num, by norm_num⟩
  have hscore : algorithmScoreOf ⟨[], []⟩ (30 * 86400000) 0 ⟨1, 0, 0, 1, 0, 0, [], [], 0⟩
      = 15 := by
    unfold algorithmScoreOf orDefault
    norm_num
  simp [applyFeedAlgorithm, hscore]

/-- C5 amended.  For every title surviving deduplication, the attached
`_algorithmScore` equals the claimed formula
`0.3·popularityScore + 0.2·trendingScore + 10·feedPriority + 5·feedWeight
+ genre/language boosts + recency boost + 0.1·completionRate + jitter`
provided `feedPriority` and `feedWeight` are nonzero (a falsy value of
either is replaced by 1 before weighting); the jitter `rnd·10` lies in
`[0,10)` when the raw draw lies in `[0,1)`; and the output is sorted
descending by the attached score (the shuffle in `generateRandomFeed` runs
only after this sort). -/
theorem c5_algorithm_score_formula (prefs : UserPrefs) (now : ℚ)
    (rnd : FeedItem → ℚ) (content : List FeedItem) :
    (∀ s ∈ applyFeedAlgorithm prefs now rnd (removeDuplicates content),
      (s.item.feedPriority ≠ 0 → s.item.feedWeight ≠ 0 →
        s.algorithmScore
          = 0.3 * s.item.popularityScore + 0.2 * s.item.trendingScore
            + 10 * s.item.feedPriority + 5 * s.item.feedWeight
            + (if prefs.genres ≠ [] ∧ s.item.genre.any (fun g => prefs.genres.contains g)
                then 20 else 0)
            + (if prefs.languages ≠ []
                  ∧ s.item.language.any (fun l => prefs.languages.contains l)
                then 15 else 0)
            + (if (now - s.item.publishedAt) / 86400000 < 7 then 10
               else if (now - s.item.publishedAt) / 86400000 < 30 then 5 else 0)
            + 0.1 * s.item.completionRate + rnd s.item * 10)
      ∧ (0 ≤ rnd s.item → rnd s.item < 1 →
          0 ≤ rnd s.item * 10 ∧ rnd s.item * 10 < 10))
    ∧ List.Sorted scoreGE (applyFeedAlgorithm prefs now rnd (removeDuplicates content)) := by
  constructor
  · intro s hs
    rw [applyFeedAlgorithm, List.mem_insertionSort, List.mem_map] at hs
    obtain ⟨it, _, rfl⟩ := hs
    constructor
    · intro hfp hfw
      show algorithmScoreOf prefs now (rnd it) it = _
      unfold algorithmScoreOf
      rw [orDefault_zero, orDefault_zero, orDefault_zero,
        orDefault_of_ne _ _ hfp, orDefault_of_ne _ _ hfw]
      ring
    · intro h0 h1
      constructor
      · positivity
      · nlinarith
  · exact List.sorted_insertionSort scoreGE _

/-- C5 witness: the amended formula applied to a single drama title with
popularity 100, priority 2, weight 3, published one day before `now`, for
a user preferring drama, with jitter draw 1/2. -/
theorem c5_witness :
    (⟨⟨1, 100, 0, 2, 3, 0, ["drama"], ["en"], 0⟩,
        algorithmScoreOf ⟨["drama"], []⟩ 86400000 (1/2)
          ⟨1, 100, 0, 2, 3, 0, ["drama"], ["en"], 0⟩⟩ : ScoredItem).algorithmScore
      = 0.3 * 100 + 0.2 * 0 + 10 * 2 + 5 * 3 + 20 + 0 + 10 + 0.1 * 0 + (1/2) * 10 := by
  have h := (c5_algorithm_score_formula ⟨["drama"], []⟩ 86400000 (fun _ => 1/2)
    [⟨1, 100, 0, 2, 3, 0, ["drama"], ["en"], 0⟩]).1
    ⟨⟨1, 100, 0, 2, 3, 0, ["drama"], ["en"], 0⟩,
      algorithmScoreOf ⟨["drama"], []⟩ 86400000 (1/2)
        ⟨1, 100, 0, 2, 3, 0, ["drama"], ["en"], 0⟩⟩
  have hmem : (⟨⟨1, 100, 0, 2, 3, 0, ["drama"], ["en"], 0⟩,
      algorithmScoreOf ⟨["drama"], []⟩ 86400000 (1/2)
        ⟨1, 100, 0, 2, 3, 0, ["drama"], ["en"], 0⟩⟩ : ScoredItem)
      ∈ applyFeedAlgorithm ⟨["drama"], []⟩ 86400000 (fun _ => 1/2)
          (removeDuplicates [⟨1, 100, 0, 2, 3, 0, ["drama"], ["en"], 0⟩]) := by
    rw [applyFeedAlgorithm, List.mem_insertionSort]
    simp [removeDuplicates, removeDuplicatesGo]
  have hs := (h hmem).1 (by norm_num) (by norm_num)
  rw [hs]
  norm_num [List.any, List.contains]

/-! ## The cache layer (`src/config/redis.js`, cache service `getOrSet`)

JSON values as stored by `setCache` (`JSON.stringify`) and read back by
`getCache` (`JSON.parse`).  The store maps a key to the value its
serialized string parses back to; `JSON.stringify` is injective on these
values, round-trips through `JSON.parse`, and never produces an empty
(falsy) string, so the JS test `value ? JSON.parse(value) : null` takes
its `null` branch exactly when the redis `get` returned `null`, i.e. when
the key is absent. -/

/-- A JSON value (`undefined` is not serializable and never stored). -/
inductive JSValue
  | jnull
  | jbool (b : Bool)
  | jnum (q : ℚ)
  | jstr (s : String)
deriving DecidableEq, Repr

/-- The backing redis keyspace. -/
def CacheStore : Type := String → Option JSValue

/-- An empty keyspace (or one whose entries have all expired). -/
def emptyStore : CacheStore := fun _ => none

/-- `setCache(key, value, ttl)`: `redisClient.setEx(key, ttl,
JSON.stringify(value))`.  Expiry is not modelled (no clock); an expired
entry behaves like `emptyStore` at that key. -/
def setCache (store : CacheStore) (key : String) (v : JSValue) : CacheStore :=
  fun k => if k = key then some v else store k

/-- `getCache(key)` (redis.js lines 82-92): `value ? JSON.parse(value) :
null`, so an absent key yields the JS `null` — the same `JSValue.jnull`
a cached `null` deserializes to. -/
def getCache (store : CacheStore) (key : String) : JSValue :=
  match store key with
  | none => JSValue.jnull
  | some v => v

/-- The cache service's `_generateKey`: a fixed namespace in front of every
key. -/
def genKey (key : String) : String := "shorts_app:" ++ key

/-- The cache service's `getOrSet(key, fetchFunction, ttl)` (cache-aside):
returns the cached value when `get` yields non-`null`; otherwise runs the
fetch, caches a non-`null`/defined result, and returns it.  The fetched
value is passed as `fetched`; the pair is (returned value, store after). -/
def getOrSet (store : CacheStore) (key : String) (fetched : JSValue) :
    JSValue × CacheStore :=
  let value := getCache store (genKey key)
  if value ≠ JSValue.jnull then (value, store)
  else if fetched ≠ JSValue.jnull then (fetched, setCache store (genKey key) fetched)
  else (fetched, store)

/-- C6 counterexample.  A cached `null` is *not* distinguishable from a
miss: `get` after `set(key, null)` returns exactly the miss sentinel
(`null`), and `getOrSet` then refetches as if the key were absent. -/
theorem c6_counterexample_cached_null :
    getCache (setCache emptyStore (genKey "k") JSValue.jnull) (genKey "k")
        = getCache emptyStore (genKey "k")
    ∧ getCache (setCache emptyStore (genKey "k") JSValue.jnull) (genKey "k")
        = JSValue.jnull
    ∧ (getOrSet (setCache emptyStore (genKey "k") JSValue.jnull) "k"
          (JSValue.jnum 7)).1 = JSValue.jnum 7 := by
  refine ⟨?_, ?_, ?_⟩ <;> simp [getOrSet, getCache, setCache, emptyStore, genKey]

/-- C6 amended.  `get` after `set` returns the cached value within the
TTL, and the result is distinguishable from a miss for every value except
`null`: the miss sentinel is `null` itself, so a cached `null` (the one
nil value) is indistinguishable, while `false`, `0`, and `""` are returned
intact and differ from the sentinel. -/
theorem c6_get_set_roundtrip (store : CacheStore) (k : String) (v : JSValue) :
    getCache emptyStore k = JSValue.jnull
    ∧ getCache (setCache store k v) k = v
    ∧ (v ≠ JSValue.jnull →
        getCache (setCache store k v) k ≠ getCache emptyStore k) := by
  refine ⟨rfl, ?_, fun hv => ?_⟩
  · simp [getCache, setCache]
  · simpa [getCache, setCache, emptyStore] using hv

/-- C6 witness: the round-trip theorem applied to the falsy values
`false`, `0`, and `""`, each cached and read back distinguishable from a
miss. -/
theorem c6_witness :
    getCache (setCache emptyStore (genKey "a") (JSValue.jbool false)) (genKey "a")
        ≠ getCache emptyStore (genKey "a")
    ∧ getCache (setCache emptyStore (genKey "b") (JSValue.jnum 0)) (genKey "b")
        ≠ getCache emptyStore (genKey "b")
    ∧ getCache (setCache emptyStore (genKey "c") (JSValue.jstr "")) (genKey "c")
        ≠ getCache emptyStore (genKey "c") :=
  ⟨(c6_get_set_roundtrip emptyStore (genKey "a") (JSValue.jbool false)).2.2 (by simp),
   (c6_get_set_roundtrip emptyStore (genKey "b") (JSValue.jnum 0)).2.2 (by simp),
   (c6_get_set_roundtrip emptyStore (genKey "c") (JSValue.jstr "")).2.2 (by simp)⟩

/-! ## The like toggle (`episodeController.toggleLike`,
`watchlistSchema.methods.toggleLike`)

State of one episode: its `analytics.likes` counter and the set of users
whose watch record has `userInteraction.liked = true` (a user without a
record behaves as `liked = false`; the controller creates the record with
the schema default before toggling).  The controller flips the user's
flag, then adjusts the counter by +1 when the new flag is true and −1
when it is false. -/

/-- Likes state of one episode across all users. -/
structure EpisodeLikes where
  likes : ℤ
  likers : Finset String
deriving DecidableEq

/-- `toggleLike(userId)` on one episode (episodeController.js lines
369-434). -/
def toggleLike (u : String) (s : EpisodeLikes) : EpisodeLikes :=
  if u ∈ s.likers then { likes := s.likes - 1, likers := s.likers.erase u }
  else { likes := s.likes + 1, likers := insert u s.likers }

/-- A fresh episode: `analytics.likes` defaults to 0 and no user has a
liked record. -/
def freshLikes : EpisodeLikes := ⟨0, ∅⟩

/-- Any interleaving of `toggleLike` calls by arbitrary users. -/
def runToggles : List String → EpisodeLikes → EpisodeLikes
  | [], s => s
  | u :: rest, s => runToggles rest (toggleLike u s)

theorem toggleLike_likes_eq_card (u : String) (s : EpisodeLikes)
    (h : s.likes = (s.likers.card : ℤ)) :
    (toggleLike u s).likes = ((toggleLike u s).likers.card : ℤ) := by
  unfold toggleLike
  by_cases hu : u ∈ s.likers
  · rw [if_pos hu]
    dsimp only
    rw [Finset.card_erase_of_mem hu, h,
      Nat.cast_sub (Finset.card_pos.2 ⟨u, hu⟩)]
    norm_num
  · rw [if_neg hu]
    dsimp only
    rw [Finset.card_insert_of_not_mem hu, h]
    push_cast
    ring

theorem runToggles_likes_eq_card (ops : List String) (s : EpisodeLikes)
    (h : s.likes = (s.likers.card : ℤ)) :
    (runToggles ops s).likes = ((runToggles ops s).likers.card : ℤ) := by
  induction ops generalizing s with
  | nil => exact h
  | cons u rest ih => exact ih (toggleLike u s) (toggleLike_likes_eq_card u s h)

/-- C7 confirmed.  Two successive `toggleLike` calls by the same user
restore the entire state (the user's flag and the episode's counter); a
single call moves the counter by exactly ±1 and flips the flag; and over
any sequence of toggles starting from a fresh episode the counter equals
the number of users whose flag is set, hence never drops below zero. -/
theorem c7_toggleLike_involution (u : String) (s : EpisodeLikes)
    (ops : List String) :
    toggleLike u (toggleLike u s) = s
    ∧ ((toggleLike u s).likes = s.likes + 1 ∨ (toggleLike u s).likes = s.likes - 1)
    ∧ (u ∈ (toggleLike u s).likers ↔ u ∉ s.likers)
    ∧ (runToggles ops freshLikes).likes
        = ((runToggles ops freshLikes).likers.card : ℤ)
    ∧ 0 ≤ (runToggles ops freshLikes).likes := by
  obtain ⟨likes, likers⟩ := s
  have hinv : (runToggles ops freshLikes).likes
      = ((runToggles ops freshLikes).likers.card : ℤ) :=
    runToggles_likes_eq_card ops freshLikes (by simp [freshLikes])
  refine ⟨?_, ?_, ?_, hinv, ?_⟩
  · by_cases hu : u ∈ likers
    · simp [toggleLike, hu, Finset.not_mem_erase, Finset.insert_erase hu]
    · simp [toggleLike, hu, Finset.erase_insert hu]
  · by_cases hu : u ∈ likers
    · right
      simp [toggleLike, hu]
    · left
      simp [toggleLike, hu]
  · by_cases hu : u ∈ likers
    · simp [toggleLike, hu, Finset.not_mem_erase]
    · simp [toggleLike, hu]
  · rw [hinv]
    exact Int.natCast_nonneg _

/-! ## Prefetch sizing (`_calculatePrefetchBandwidth`,
`videoService._estimatePreloadSize`) -/

/-- The slice of an episode the size estimators read. -/
structure PrefEpisode where
  duration : ℚ
deriving DecidableEq, Repr

/-- The object `_calculatePrefetchBandwidth` returns (download-time and
formatted-size fields omitted; they are derived from
`totalEstimatedSize`). -/
structure BandwidthEstimate where
  totalEstimatedSize : ℚ
  prefetchParts : ℕ
deriving DecidableEq, Repr

/-- `_calculatePrefetchBandwidth(prefetchEpisodes)`: a `forEach`
accumulation of `((episode.duration || 1800) / 60) · 1 MiB` — a flat
megabyte per minute, with no quality multiplier. -/
def calculatePrefetchBandwidth (eps : List PrefEpisode) : BandwidthEstimate :=
  { totalEstimatedSize :=
      eps.foldl (fun acc e => acc + orDefault e.duration 1800 / 60 * (1024 * 1024)) 0
    prefetchParts := eps.length }

/-- The `qualitySizeMultipliers` table of
`videoService._estimatePreloadSize`, in MB per minute. -/
def qualityMultiplier : String → Option ℚ
  | "480p" => some 0.5
  | "720p" => some 1.2
  | "1080p" => some 2.5
  | "4k" => some 6.0
  | _ => none

/-- JavaScript `Math.round`. -/
def jsRound (x : ℚ) : ℤ := ⌊x + 1 / 2⌋

/-- The object `_estimatePreloadSize` returns. -/
structure PreloadSize where
  estimatedSizeMB : ℚ
  estimatedSizeBytes : ℤ
  quality : String
deriving DecidableEq, Repr

/-- `videoService._estimatePreloadSize(episode, quality)`: maps the
`low`/`medium` tiers to 480p/720p (anything else to 1080p), looks up the
per-minute MB multiplier (default 1.2), and converts
`(duration || 1800)/60 · multiplier` MB to bytes at 1 MB = 1024·1024. -/
def estimatePreloadSize (duration : ℚ) (quality : String) : PreloadSize :=
  let qualityToUse := if quality = "low" then "480p"
    else if quality = "medium" then "720p" else "1080p"
  let multiplier := (qualityMultiplier qualityToUse).getD 1.2
  let durationInMinutes := orDefault duration 1800 / 60
  let estimatedSizeMB := durationInMinutes * multiplier
  { estimatedSizeMB := (jsRound (estimatedSizeMB * 100) : ℚ) / 100
    estimatedSizeBytes := jsRound (estimatedSizeMB * 1024 * 1024)
    quality := qualityToUse }

theorem foldl_add_map {α : Type*} (f : α → ℚ) :
    ∀ (l : List α) (acc : ℚ),
      l.foldl (fun a e => a + f e) acc = acc + (l.map f).sum
  | [], acc => by simp
  | e :: rest, acc => by
    simp only [List.foldl_cons, List.map_cons, List.sum_cons]
    rw [foldl_add_map f rest (acc + f e)]
    ring

/-- C8 counterexample.  The per-Card byte estimate in the prefetch plan
(`_calculatePrefetchBandwidth`) charges a flat 1 MiB per minute regardless
of quality: a one-minute episode prefetched at 480p is estimated at
1048576 bytes, while the claimed formula `duration_minutes ·
multiplier[480p]` gives 0.5 MB = 524288 bytes. -/
theorem c8_counterexample_flat_rate :
    (calculatePrefetchBandwidth [⟨60⟩]).totalEstimatedSize = 1048576
    ∧ ((60 : ℚ) / 60) * 0.5 * (1024 * 1024) = 524288
    ∧ (1048576 : ℚ) ≠ 524288 := by
  refine ⟨?_, by norm_num, by norm_num⟩
  simp [calculatePrefetchBandwidth, orDefault]
  norm_num

/-- C8 amended.  Each Card's estimated total byte cost is the sum over its
prefetched episodes of `duration_minutes · 1 MiB`, independent of quality;
the multiplier table `{480p: 0.5, 720p: 1.2, 1080p: 2.5, 4k: 6.0}` MB/min
lives only in `videoService._estimatePreloadSize`, which prices a *single*
episode from its requested tier (`low`→480p, `medium`→720p,
otherwise 1080p). -/
theorem c8_bandwidth_formulas (eps : List PrefEpisode) (d : ℚ) (q : String) :
    (calculatePrefetchBandwidth eps).totalEstimatedSize
        = (eps.map (fun e => orDefault e.duration 1800 / 60 * (1024 * 1024))).sum
    ∧ (calculatePrefetchBandwidth eps).prefetchParts = eps.length
    ∧ (estimatePreloadSize d "low").quality = "480p"
    ∧ (estimatePreloadSize d "low").estimatedSizeBytes
        = jsRound (orDefault d 1800 / 60 * 0.5 * 1024 * 1024)
    ∧ (estimatePreloadSize d "medium").estimatedSizeBytes
        = jsRound (orDefault d 1800 / 60 * 1.2 * 1024 * 1024)
    ∧ (q ≠ "low" → q ≠ "medium" →
        (estimatePreloadSize d q).estimatedSizeBytes
          = jsRound (orDefault d 1800 / 60 * 2.5 * 1024 * 1024))
    ∧ qualityMultiplier "4k" = some 6 := by
  refine ⟨?_, rfl, rfl, rfl, rfl, fun h1 h2 => ?_, by norm_num [qualityMultiplier]⟩
  · show eps.foldl (fun a e => a + orDefault e.duration 1800 / 60 * (1024 * 1024)) 0 = _
    rw [foldl_add_map (fun e => orDefault e.duration 1800 / 60 * (1024 * 1024)) eps 0]
    ring
  · unfold estimatePreloadSize
    rw [if_neg h1, if_neg h2]
    simp [qualityMultiplier]

/-- C8 witness: the amended formulas applied to a 60-second episode at the
`high` tier (priced as 1080p). -/
theorem c8_witness :
    (estimatePreloadSize 60 "high").estimatedSizeBytes
        = jsRound (orDefault 60 1800 / 60 * 2.5 * 1024 * 1024)
    ∧ (calculatePrefetchBandwidth [⟨60⟩, ⟨120⟩]).totalEstimatedSize
        = (([⟨60⟩, ⟨120⟩] : List PrefEpisode).map
            (fun e => orDefault e.duration 1800 / 60 * (1024 * 1024))).sum := by
  have h := c8_bandwidth_formulas [⟨60⟩, ⟨120⟩] 60 "high"
  exact ⟨h.2.2.2.2.2.1 (by simp) (by simp), h.1⟩

/-! ## First-episode attachment (`feedService._attachFirstEpisodes`) -/

/-- The fields of an episode document that the first-episode aggregate
reads. -/
structure EpisodeDoc where
  id : ℕ
  contentId : ℕ
  seasonNumber : ℕ
  episodeNumber : ℕ
  status : String
  duration : ℚ
deriving DecidableEq, Repr

/-- The `$sort { seasonNumber: 1, episodeNumber: 1 }` order. -/
def epOrderLE (a b : EpisodeDoc) : Prop :=
  a.seasonNumber < b.seasonNumber
    ∨ (a.seasonNumber = b.seasonNumber ∧ a.episodeNumber ≤ b.episodeNumber)

instance : DecidableRel epOrderLE :=
  fun a b => inferInstanceAs
    (Decidable (a.seasonNumber < b.seasonNumber
      ∨ (a.seasonNumber = b.seasonNumber ∧ a.episodeNumber ≤ b.episodeNumber)))

/-- The aggregate of `_attachFirstEpisodes`: `$match` on the content id
and `status: 'published'`, `$sort` by season and episode number, and
`$first` per content — i.e. the least published episode of the title, or
nothing when the title has none. -/
def firstEpisodeFor (episodes : List EpisodeDoc) (cid : ℕ) : Option EpisodeDoc :=
  ((episodes.filter (fun e => e.contentId == cid && e.status == "published")).insertionSort
    epOrderLE).head?

/-- The content fields `_attachFirstEpisodes` copies onto the card
(abbreviated to the id and the algorithm metadata). -/
structure ContentDoc where
  id : ℕ
  feedSource : String
  algorithmScore : ℚ
deriving DecidableEq, Repr

/-- A feed card as returned by `_attachFirstEpisodes`: the content summary
plus `firstEpisode: episode ? {...} : null`. -/
structure Card where
  id : ℕ
  feedSource : String
  algorithmScore : ℚ
  firstEpisode : Option EpisodeDoc
deriving DecidableEq, Repr

/-- `_attachFirstEpisodes(content)` (feedService.js lines 247-312): maps
*every* content item to a card, attaching the resolved first episode or
`null`. -/
def attachFirstEpisodes (content : List ContentDoc) (episodes : List EpisodeDoc) :
    List Card :=
  content.map (fun c =>
    { id := c.id
      feedSource := c.feedSource
      algorithmScore := c.algorithmScore
      firstEpisode := firstEpisodeFor episodes c.id })

/-- C9 counterexample.  A title whose only episode is unpublished resolves
no first episode, yet its card is *kept* in the returned page (with
`firstEpisode: null`) — it is not dropped as the claim states. -/
theorem c9_counterexample_card_kept :
    firstEpisodeFor [⟨10, 1, 1, 1, "draft", 100⟩] 1 = none
    ∧ attachFirstEpisodes [⟨1, "popular", 0⟩] [⟨10, 1, 1, 1, "draft", 100⟩]
        = [⟨1, "popular", 0, none⟩]
    ∧ (attachFirstEpisodes [⟨1, "popular", 0⟩] [⟨10, 1, 1, 1, "draft", 100⟩]).length = 1
    ∧ (1 : ℕ) ≠ 0 := by
  refine ⟨rfl, rfl, rfl, by norm_num⟩

/-- C9 amended.  A per-title first-episode resolution failure does not
fail the page and does not drop the card either: `_attachFirstEpisodes`
returns exactly one card per input title, and a title with no published
episode yields its card with `firstEpisode = null`. -/
theorem c9_unresolved_card_kept_with_null (content : List ContentDoc)
    (episodes : List EpisodeDoc) :
    (attachFirstEpisodes content episodes).length = content.length
    ∧ ∀ c ∈ content, firstEpisodeFor episodes c.id = none →
        (⟨c.id, c.feedSource, c.algorithmScore, none⟩ : Card)
          ∈ attachFirstEpisodes content episodes := by
  refine ⟨List.length_map content _, fun c hc hnone => ?_⟩
  rw [attachFirstEpisodes, List.mem_map]
  exact ⟨c, hc, by rw [hnone]⟩

/-- C9 witness: the retention theorem applied to one title with a single
draft episode. -/
theorem c9_witness :
    (⟨1, "popular", 0, none⟩ : Card)
      ∈ attachFirstEpisodes [⟨1, "popular", 0⟩] [⟨10, 1, 1, 1, "draft", 100⟩] := by
  have h := c9_unresolved_card_kept_with_null [⟨1, "popular", 0⟩]
    [⟨10, 1, 1, 1, "draft", 100⟩]
  exact h.2 ⟨1, "popular", 0⟩ (by simp) rfl

end Cino
